import Mathlib

/-!
# GameNest: verification of the catalog store and detection heuristic

Shallow embedding of the non-GUI logic of `src/GameNest.py`:
the persisted game-catalog data model (GameEntry / save_games / load_games),
the executable-selection heuristic (`find_game_exe`), the detector
(`detect_games`), and the state-mutating operations of `GameNestLauncher`
together with their persistence behaviour.

Python method definitions that are shadowed by a later definition of the
same name in the class body are modelled by their LAST (effective)
definition, since that is the one Python binds.
-/

namespace GameNest

/-! ## String primitives (models of Python str / ntpath operations) -/

/-- Model of Python `str.lower()` (ASCII case folding, which is all the
program's constants use). -/
def toLowerS (s : String) : String := String.mk (s.toList.map Char.toLower)

/-- Is `pre` a prefix of `l`. -/
def startsWithChars : List Char → List Char → Bool
  | [], _ => true
  | _ :: _, [] => false
  | a :: as, b :: bs => a == b && startsWithChars as bs

/-- Does `hay` contain `needle` as a contiguous sublist. -/
def listContainsSub (needle : List Char) : List Char → Bool
  | [] => startsWithChars needle []
  | h :: t => startsWithChars needle (h :: t) || listContainsSub needle t

/-- Model of Python `needle in hay` on strings (substring containment). -/
def strContains (hay needle : String) : Bool :=
  listContainsSub needle.toList hay.toList

/-- Model of Python `s.endswith(suffix)`. -/
def strEndsWith (s suffix : String) : Bool :=
  startsWithChars suffix.toList.reverse s.toList.reverse

/-- Windows path separators recognised by `ntpath`. -/
def isSep (c : Char) : Bool := c == '\\' || c == '/'

/-- Characters after the last path separator. -/
def basenameAux : List Char → List Char → List Char
  | acc, [] => acc.reverse
  | acc, c :: t => if isSep c then basenameAux [] t else basenameAux (c :: acc) t

/-- Model of Python `os.path.basename` (ntpath): the part after the last
separator. -/
def basename (s : String) : String := String.mk (basenameAux [] s.toList)

/-- Index of the last occurrence of `c`, if any. -/
def lastIdxOf (c : Char) : List Char → Option Nat
  | [] => none
  | a :: t =>
    match lastIdxOf c t with
    | some i => some (i + 1)
    | none => if a == c then some 0 else none

/-- Model of `os.path.splitext(s)[0]` for a separator-free name `s`
(the only way the program uses it): split at the last dot, unless every
character before that dot is itself a dot. -/
def splitextRoot (s : String) : String :=
  let l := s.toList
  match lastIdxOf '.' l with
  | none => s
  | some i => if (l.take i).all (fun c => c == '.') then s else String.mk (l.take i)

/-- Model of `os.path.join(root, f)` (ntpath) for a relative name `f`. -/
def joinPath (root f : String) : String :=
  match root.toList.reverse with
  | [] => f
  | c :: _ => if isSep c || c == ':' then root ++ f else root ++ "\\" ++ f

/-! ## JSON values

The persisted artifact.  `json.dump`/`json.load` (the Python standard
library) are external collaborators that faithfully round-trip this value
tree between text and data, so the embedding works at the value level. -/

/-- A JSON value as produced by `json.load` / consumed by `json.dump`.
The program only ever writes null, bools, ints, strings, arrays and
objects. -/
inductive JValue where
  | null : JValue
  | bool : Bool → JValue
  | int : Int → JValue
  | str : String → JValue
  | arr : List JValue → JValue
  | obj : List (String × JValue) → JValue

mutual

/-- Structural equality test for JSON values. -/
def JValue.beq : JValue → JValue → Bool
  | .null, .null => true
  | .bool a, .bool b => a == b
  | .int a, .int b => a == b
  | .str a, .str b => a == b
  | .arr a, .arr b => beqArrJ a b
  | .obj a, .obj b => beqObjJ a b
  | _, _ => false

/-- Structural equality test for JSON arrays. -/
def beqArrJ : List JValue → List JValue → Bool
  | [], [] => true
  | x :: xs, y :: ys => JValue.beq x y && beqArrJ xs ys
  | _, _ => false

/-- Structural equality test for JSON objects. -/
def beqObjJ : List (String × JValue) → List (String × JValue) → Bool
  | [], [] => true
  | (k, v) :: xs, (l, w) :: ys => k == l && JValue.beq v w && beqObjJ xs ys
  | _, _ => false

end

mutual

/-- Soundness and completeness of `JValue.beq`. -/
def JValue.beq_iff : (a b : JValue) → (JValue.beq a b = true ↔ a = b)
  | a, b => by
    cases a <;> cases b <;> simp [JValue.beq]
    case arr.arr xs ys => exact beqArrJ_iff xs ys
    case obj.obj xs ys => exact beqObjJ_iff xs ys

/-- Soundness and completeness of `beqArrJ`. -/
def beqArrJ_iff : (a b : List JValue) → (beqArrJ a b = true ↔ a = b)
  | [], [] => by simp [beqArrJ]
  | [], _ :: _ => by simp [beqArrJ]
  | _ :: _, [] => by simp [beqArrJ]
  | x :: xs, y :: ys => by
    simp [beqArrJ, JValue.beq_iff x y, beqArrJ_iff xs ys]

/-- Soundness and completeness of `beqObjJ`. -/
def beqObjJ_iff : (a b : List (String × JValue)) → (beqObjJ a b = true ↔ a = b)
  | [], [] => by simp [beqObjJ]
  | [], _ :: _ => by simp [beqObjJ]
  | _ :: _, [] => by simp [beqObjJ]
  | (k, v) :: xs, (l, w) :: ys => by
    simp [beqObjJ, JValue.beq_iff v w, beqObjJ_iff xs ys]

end

instance : DecidableEq JValue := fun a b => decidable_of_iff _ (JValue.beq_iff a b)

/-- Model of Python `dict.get`: first binding of the key, if present
(`json.load` produces dicts, whose keys are unique). -/
def jGet (kvs : List (String × JValue)) (k : String) : Option JValue :=
  match kvs with
  | [] => none
  | (k', v) :: t => if k' == k then some v else jGet t k

/-! ## GameEntry and the catalog document -/

/-- Model of the `GameEntry` class: one game record.  Fields are typed per
the schema the program itself writes (`to_dict`). -/
structure GameEntry where
  name : String
  path : String
  icon_path : Option String
  is_favorite : Bool
  notes : String
  last_played : String
  total_playtime : Int
deriving DecidableEq

/-- Constructor `GameEntry.__init__(name, path, icon_path)`: the remaining fields take
their defaults. -/
def GameEntry.init (name path : String) (icon_path : Option String) : GameEntry :=
  { name := name, path := path, icon_path := icon_path,
    is_favorite := false, notes := "", last_played := "Never",
    total_playtime := 0 }

/-- Encoding of an optional string as a JSON value (`None` becomes null). -/
def optStrJ : Option String → JValue
  | none => JValue.null
  | some s => JValue.str s

/-- Serialization `GameEntry.to_dict`.  `save_games` writes `{**g.to_dict(),
"notes": getattr(g, "notes", ""), "last_played": getattr(g, "last_played",
"Never")}`; both attributes always exist, so the override re-binds the same
keys to the same values and the resulting dict equals `to_dict` itself. -/
def GameEntry.to_dict (g : GameEntry) : List (String × JValue) :=
  [("name", JValue.str g.name),
   ("path", JValue.str g.path),
   ("icon_path", optStrJ g.icon_path),
   ("is_favorite", JValue.bool g.is_favorite),
   ("notes", JValue.str g.notes),
   ("last_played", JValue.str g.last_played),
   ("total_playtime", JValue.int g.total_playtime)]

/-- Model of a `GameEntry` object exactly as Python holds it after
`from_dict`: every attribute is whatever value the JSON stored — the code
performs no type checks, so the attributes range over arbitrary JSON
values (Python `None` is the JSON null). -/
structure RawEntry where
  name : JValue
  path : JValue
  icon_path : JValue
  is_favorite : JValue
  notes : JValue
  last_played : JValue
  total_playtime : JValue
deriving DecidableEq

/-- Faithful model of `GameEntry.from_dict` combined with the two
redundant re-assignments `g.notes = x.get("notes", "")` and
`g.last_played = x.get("last_played", "Never")` performed by `load_games`
(they read the same keys with the same defaults).  `data["name"]` /
`data["path"]` raise `KeyError` when absent, which the caller's `except`
turns into a load failure: modelled by `none`.  Every other field is a
`dict.get` with a default: the stored value when the key is present —
whatever its type — and the default otherwise. -/
def GameEntry.from_dict (kvs : List (String × JValue)) : Option RawEntry :=
  match jGet kvs "name", jGet kvs "path" with
  | some nv, some pv =>
    some { name := nv
           path := pv
           icon_path := (jGet kvs "icon_path").getD JValue.null
           is_favorite := (jGet kvs "is_favorite").getD (JValue.bool false)
           notes := (jGet kvs "notes").getD (JValue.str "")
           last_played := (jGet kvs "last_played").getD (JValue.str "Never")
           total_playtime := (jGet kvs "total_playtime").getD (JValue.int 0) }
  | _, _ => none

/-- Restriction of `GameEntry.from_dict` to the schema `save_games`
writes: the same key reads, with the stored values decoded at their
written types.  On every document the program itself produced the two
agree; a value of a type the schema does not allow yields `none` here
while the unrestricted `GameEntry.from_dict` (above) keeps it raw. -/
def GameEntry.from_dict_typed (kvs : List (String × JValue)) : Option GameEntry :=
  match jGet kvs "name", jGet kvs "path" with
  | some (JValue.str name), some (JValue.str path) =>
    let icon : Option (Option String) :=
      match jGet kvs "icon_path" with
      | none => some none
      | some JValue.null => some none
      | some (JValue.str s) => some (some s)
      | some _ => none
    let fav : Option Bool :=
      match jGet kvs "is_favorite" with
      | none => some false
      | some (JValue.bool b) => some b
      | some _ => none
    let nts : Option String :=
      match jGet kvs "notes" with
      | none => some ""
      | some (JValue.str s) => some s
      | some _ => none
    let lp : Option String :=
      match jGet kvs "last_played" with
      | none => some "Never"
      | some (JValue.str s) => some s
      | some _ => none
    let tp : Option Int :=
      match jGet kvs "total_playtime" with
      | none => some 0
      | some (JValue.int n) => some n
      | some _ => none
    match icon, fav, nts, lp, tp with
    | some i, some f, some n, some l, some t =>
      some { name := name, path := path, icon_path := i, is_favorite := f,
             notes := n, last_played := l, total_playtime := t }
    | _, _, _, _, _ => none
  | _, _ => none

/-- Exactly when the load loop raises on a games-array entry: `x["name"]`
or `x["path"]` on a non-dict raises `TypeError`, and on a dict missing the
key raises `KeyError`.  Nothing else in the loop raises — present fields
of any type are stored as-is. -/
def entryRaises (x : JValue) : Bool :=
  match x with
  | JValue.obj kvs => (jGet kvs "name").isNone || (jGet kvs "path").isNone
  | _ => true

/-- The in-memory catalog state of `GameNestLauncher`: `self.games`,
`self.custom_scan_folders`, `self.custom_background_path`,
`self.bg_blur_amount`. -/
structure Doc where
  games : List GameEntry
  custom_scan_folders : List String
  custom_background_path : Option String
  bg_blur_amount : Int
deriving DecidableEq

/-- The document synthesized at startup (`__init__` before `load_games`). -/
def emptyDoc : Doc :=
  { games := [], custom_scan_folders := [], custom_background_path := none,
    bg_blur_amount := 0 }

/-- Model of `save_games`: serializes the full in-memory state to one JSON object. -/
def save_games (d : Doc) : JValue :=
  JValue.obj
    [("games", JValue.arr (d.games.map (fun g => JValue.obj g.to_dict))),
     ("custom_scan_folders", JValue.arr (d.custom_scan_folders.map JValue.str)),
     ("custom_background_path", optStrJ d.custom_background_path),
     ("custom_background_blur", JValue.int d.bg_blur_amount)]

/-- Decoding of one element of the games array into the typed record: it
must be a JSON object (`x["name"]` on anything else raises) and the typed
decoding must succeed.  This coincides with the program on every entry it
ever wrote, and fails on exactly the entries Python raises on plus the
ill-typed remainder outside the written schema. -/
def decodeEntry : JValue → Option GameEntry
  | JValue.obj kvs => GameEntry.from_dict_typed kvs
  | _ => none

/-- The per-entry loop of `load_games`: `self.games = []` then one append
per entry; an exception stops the loop with the prefix already appended
(`true` marks the failure). -/
def loadEntries : List JValue → List GameEntry → List GameEntry × Bool
  | [], acc => (acc, false)
  | x :: t, acc =>
    match decodeEntry x with
    | some g => loadEntries t (acc ++ [g])
    | none => (acc, true)

/-- Decoding of `custom_scan_folders` (a JSON array of strings in every
document the program writes). -/
def decodeStrList : JValue → Option (List String)
  | JValue.arr xs =>
    let rec go : List JValue → Option (List String)
      | [] => some []
      | JValue.str s :: t =>
        match go t with
        | some l => some (s :: l)
        | none => none
      | _ :: _ => none
    go xs
  | _ => none

/-- Error message shown by `load_games` on any caught exception. -/
def loadErrMsg : String := "Failed to load games.json"

/-- Model of the data-assignment part of `load_games` on an existing
file: the try block through `self.blur_effect.setBlurRadius` plus the
exception handler.  `input = none` models a read or JSON-parse failure
(`open` / `json.load` raised before any assignment); `input = some j` is
the parsed document.  Returns the resulting in-memory state plus the
reported error, if any.  Assignments happen in source order, so a failure
mid-way leaves the earlier assignments in place: `self.games` is reset to
`[]` before the entry loop, and each successfully decoded entry is
appended before a later failure.  The final statement of the try block —
`self.blur_slider.setValue(self.bg_blur_amount)`, which acts on the
widget and can clamp the just-assigned blur and trigger a save through
the valueChanged signal — is modelled by `W.blurFeedback` inside
`W.load`; an exception skips it. -/
def load_games (prior : Doc) (input : Option JValue) : Doc × Option String :=
  match input with
  | none => (prior, some loadErrMsg)
  | some (JValue.obj kvs) =>
    let gamesJ := match jGet kvs "games" with
      | some v => v
      | none => JValue.arr []
    match gamesJ with
    | JValue.arr xs =>
      match loadEntries xs [] with
      | (gs, true) => ({ prior with games := gs }, some loadErrMsg)
      | (gs, false) =>
        let sfJ := match jGet kvs "custom_scan_folders" with
          | some v => v
          | none => JValue.arr []
        match decodeStrList sfJ with
        | none => ({ prior with games := gs }, some loadErrMsg)
        | some sf =>
          let bgr : Option (Option String) :=
            match jGet kvs "custom_background_path" with
            | none => some none
            | some JValue.null => some none
            | some (JValue.str s) => some (some s)
            | some _ => none
          match bgr with
          | none =>
            ({ prior with games := gs, custom_scan_folders := sf }, some loadErrMsg)
          | some bg =>
            let blr : Option Int :=
              match jGet kvs "custom_background_blur" with
              | none => some 0
              | some (JValue.int n) => some n
              | some _ => none
            match blr with
            | none =>
              ({ prior with
                  games := gs
                  custom_scan_folders := sf
                  custom_background_path := bg }, some loadErrMsg)
            | some b =>
              ({ games := gs, custom_scan_folders := sf,
                 custom_background_path := bg, bg_blur_amount := b }, none)
    | _ => ({ prior with games := [] }, some loadErrMsg)
  | some _ => ({ prior with games := [] }, some loadErrMsg)

/-! ## The detection heuristic (`find_game_exe`) and the detector
(`detect_games`)

Filesystem enumeration is an external effect: the recursive walk of a
child folder is passed in as the list of `(root, files)` pairs `os.walk`
yields, in walk order, and the immediate children of a scan root as the
list `os.scandir` yields. -/

/-- Does this filename count as an executable candidate:
`f.lower().endswith(".exe")`. -/
def isExeName (f : String) : Bool := strEndsWith (toLowerS f) ".exe"

/-- The candidate list of `find_game_exe`: for every walked directory, the
files whose lowered name ends in `.exe`, joined to their directory, in
walk order. -/
def walkCandidates : List (String × List String) → List String
  | [] => []
  | (r, fs) :: t =>
    (fs.filter (fun f => isExeName f)).map (fun f => joinPath r f) ++ walkCandidates t

/-- The exclusion filter used by all three filtered steps:
`any(x in os.path.basename(c).lower() for x in ['unitycrashhandler',
'_data', '_x64'])`. -/
def excludedName (c : String) : Bool :=
  ["unitycrashhandler", "_data", "_x64"].any
    (fun x => strContains (toLowerS (basename c)) x)

/-- Model of `find_game_exe(folder_path)` from `detect_games`, with the walk of
`folder_path` passed explicitly.  The two `for`-loops that `return` on the
first hit are the two `find?`s; the list comprehension plus `filtered[0]`
is the `filter`; `candidates[0]` is the final fallback. -/
def find_game_exe (folder_path : String) (walk : List (String × List String)) :
    Option String :=
  let candidates := walkCandidates walk
  if candidates.isEmpty then none
  else
    let folder_basename := toLowerS (basename folder_path)
    match candidates.find? (fun c =>
        strContains (toLowerS (splitextRoot (basename c))) folder_basename
          && !excludedName c) with
    | some c => some c
    | none =>
      match candidates.find? (fun c =>
          strContains (toLowerS (basename c)) "launcher" && !excludedName c) with
      | some c => some c
      | none =>
        let filtered := candidates.filter (fun c => !excludedName c)
        match filtered with
        | c :: _ => some c
        | [] => candidates.head?

/-- One immediate child directory of a scan root, as `os.scandir` reports
it (`entry.name`, `entry.path`), together with the recursive walk of its
subtree. -/
structure ChildDir where
  name : String
  path : String
  walk : List (String × List String)

/-- One existing scan root: its directory entries that are directories, in
enumeration order. -/
structure RootDir where
  path : String
  children : List ChildDir

/-- The detection loop body over one root's children: for every child
directory, run `find_game_exe`; propose `GameEntry(entry.name, exe_found,
icon_path)` unless the chosen path already belongs to a known game.  The
icon provider (`get_game_icon`) is an external collaborator, passed as a
function. -/
def scanChildren (games : List GameEntry) (icon : String → Option String) :
    List ChildDir → List GameEntry
  | [] => []
  | ch :: t =>
    match find_game_exe ch.path ch.walk with
    | some exe =>
      if games.any (fun g => g.path == exe) then scanChildren games icon t
      else GameEntry.init ch.name exe (icon exe) :: scanChildren games icon t
    | none => scanChildren games icon t

/-- The candidate-building phase of `detect_games`: roots in order, then
children in enumeration order. -/
def detect_candidates (games : List GameEntry) (icon : String → Option String) :
    List RootDir → List GameEntry
  | [] => []
  | r :: t => scanChildren games icon r.children ++ detect_candidates games icon t

/-- The accept phase of `detect_games` (dialog confirmed): each selected
candidate is appended unless a game with its path is already present;
later checks see earlier appends. -/
def accept_detected (games : List GameEntry) : List GameEntry → List GameEntry
  | [] => games
  | s :: t =>
    if games.any (fun g => g.path == s.path) then accept_detected games t
    else accept_detected (games ++ [s]) t

/-! ## The launcher's mutating operations and their persistence behaviour

A `World` couples the in-memory state with the current contents of
`games.json`.  Each operation mirrors the effective (last) definition of
the corresponding `GameNestLauncher` method; `self.save_games()` becomes
`disk := save_games mem`.  Dialog results (chosen files, entered text,
confirmation) are parameters; each operation models its committed branch. -/

/-- Qt bounds a value requested via `QSlider.setValue` to the slider's
configured range — here minimum 0 and maximum 20. -/
def sliderClamp (v : Int) : Int := max 0 (min v 20)

structure World where
  mem : Doc
  disk : JValue
deriving DecidableEq

/-- The persisted file matches the in-memory state. -/
def World.synced (w : World) : Prop := w.disk = save_games w.mem

namespace W

/-- Effective `add_game_manually` (the definition with the executable name
filter): appends `GameEntry(name, exe, icon_path)` with
`name = os.path.splitext(os.path.basename(exe))[0]`, then saves.  No
duplicate-path check is performed. -/
def add_game_manually (w : World) (exe : String) (icon : Option String) : World :=
  let gs := w.mem.games ++ [GameEntry.init (splitextRoot (basename exe)) exe icon]
  let mem := { w.mem with games := gs }
  { mem := mem, disk := save_games mem }

/-- Effective `remove_selected_game` (confirmation accepted):
`self.games = [g for g in self.games if g.path != path]`, then saves. -/
def remove_selected_game (w : World) (path : String) : World :=
  let mem := { w.mem with games := w.mem.games.filter (fun g => !(g.path == path)) }
  { mem := mem, disk := save_games mem }

/-- Model of `rename_selected_game` (dialog accepted with a non-empty name): every
game whose path matches gets the new name, then saves. -/
def rename_selected_game (w : World) (path new_name : String) : World :=
  let gs := w.mem.games.map
    (fun g => if g.path == path then { g with name := new_name } else g)
  let mem := { w.mem with games := gs }
  { mem := mem, disk := save_games mem }

/-- Update of the first game with the given path, if any (Python
`next((g for g in self.games if g.path == path), None)` followed by a
mutation of that object). -/
def updateFirst (f : GameEntry → GameEntry) (path : String) :
    List GameEntry → List GameEntry
  | [] => []
  | g :: t => if g.path == path then f g :: t else g :: updateFirst f path t

/-- Model of `edit_notes` (dialog accepted), on the game identified by its path:
sets the notes text and saves. -/
def edit_notes (w : World) (path text : String) : World :=
  let gs := updateFirst (fun g => { g with notes := text }) path w.mem.games
  let mem := { w.mem with games := gs }
  { mem := mem, disk := save_games mem }

/-- Model of `toggle_favorite`: if no game carries the selected path the method
returns without touching anything; otherwise it flips the flag of the
first such game and saves. -/
def toggle_favorite (w : World) (path : String) : World :=
  if w.mem.games.any (fun g => g.path == path) then
    let gs := updateFirst (fun g => { g with is_favorite := !g.is_favorite }) path
      w.mem.games
    let mem := { w.mem with games := gs }
    { mem := mem, disk := save_games mem }
  else w

/-- Effective `add_scan_folder` (folder chosen in the dialog): appends the
folder unless already present and refreshes the list widget.  It never
calls `save_games`. -/
def add_scan_folder (w : World) (folder : String) : World :=
  if w.mem.custom_scan_folders.contains folder then w
  else
    let sf := w.mem.custom_scan_folders ++ [folder]
    { w with mem := { w.mem with custom_scan_folders := sf } }

/-- Effective `remove_scan_folder`: removes each selected folder (first
occurrence, when present) and refreshes the list widget.  It never calls
`save_games`. -/
def remove_scan_folder (w : World) (selected : List String) : World :=
  let sf := selected.foldl (fun l f => l.erase f) w.mem.custom_scan_folders
  { w with mem := { w.mem with custom_scan_folders := sf } }

/-- Model of `set_custom_background` (file chosen): stores the path and saves. -/
def set_custom_background (w : World) (path : String) : World :=
  let mem := { w.mem with custom_background_path := some path }
  { mem := mem, disk := save_games mem }

/-- Model of `set_background_blur` (slider value changed): stores the value as-is
and saves. -/
def set_background_blur (w : World) (value : Int) : World :=
  let mem := { w.mem with bg_blur_amount := value }
  { mem := mem, disk := save_games mem }

/-- Effective `reset_games_list` (confirmation accepted): clears the game
list and saves. -/
def reset_games_list (w : World) : World :=
  let mem := { w.mem with games := [] }
  { mem := mem, disk := save_games mem }

/-- Accepting detected candidates: the dedup-append loop followed by one
`save_games`. -/
def accept_candidates (w : World) (selected : List GameEntry) : World :=
  let mem := { w.mem with games := accept_detected w.mem.games selected }
  { mem := mem, disk := save_games mem }

/-- Effective `launch_selected_game` (the last definition in the class
body, which is the one Python binds): looks up the selected item's path
and calls `os.startfile(path)`; on failure it shows a message box.  It
performs no state mutation and no save in either branch — the
playtime-accounting variants earlier in the file are shadowed dead code.
`startOk` is the outcome of the external spawn, `durationSeconds` the
length of the play session; neither is consulted. -/
def launch_selected_game (w : World) (path : String) (startOk : Bool)
    (durationSeconds : Int) : World :=
  match path, startOk, durationSeconds with
  | _, _, _ => w

/-- Model of `self.blur_slider.setValue(self.bg_blur_amount)`, the final
statement of the `load_games` try block, with the slider at its initial
value 0 (true at the method's only call site, startup: the earlier
`setValue(0)` in `__init__` did not move it).  Qt clamps the requested
value to the slider's configured range [0, 20]; when the clamped value
differs from the current value 0 it synchronously emits valueChanged,
which invokes `set_background_blur`: the clamped value is stored and the
full document saved.  When the clamped value equals 0 no signal fires and
the assigned blur stays held as-is. -/
def blurFeedback (w : World) : World :=
  let target := sliderClamp w.mem.bg_blur_amount
  if target ≠ 0 then set_background_blur w target else w

/-- Model of `load_games` at startup, its only call site: a missing file
(input `none`) synthesizes the current (empty) document and writes it; an
unreadable or unparseable file (`some none`) and a parsed file
(`some (some j)`) go through the pure `load_games`.  On failure the
exception skips the rest of the try block, so the existing file is left
untouched; on success the trailing `blur_slider.setValue` runs the slider
feedback, which may clamp the held blur and rewrite the file. -/
def load (w : World) (input : Option (Option JValue)) : World × Option String :=
  match input with
  | none => ({ mem := w.mem, disk := save_games w.mem }, none)
  | some i =>
    let r := load_games w.mem i
    match r.2 with
    | some e => ({ w with mem := r.1 }, some e)
    | none => (blurFeedback { w with mem := r.1 }, none)

end W

/-! ## Spec-side rendering of the selection heuristic

Written from the specification text, step by step, to be compared with
the source-side `find_game_exe`. -/

/-- Spec step 1 predicate: the candidate's base filename sans extension
(case-insensitive) contains the folder's base name, and its filename
contains none of the exclusion substrings (case-insensitive). -/
def specStep1 (folderPath c : String) : Bool :=
  strContains (toLowerS (splitextRoot (basename c))) (toLowerS (basename folderPath))
    && !excludedName c

/-- Spec step 2 predicate: the candidate's filename contains "launcher"
(case-insensitive) and passes the same exclusion filter. -/
def specStep2 (c : String) : Bool :=
  strContains (toLowerS (basename c)) "launcher" && !excludedName c

/-- Spec step 3 predicate: the candidate is not excluded. -/
def specStep3 (c : String) : Bool := !excludedName c

/-- The four steps in order, first match winning: a step-1 match, else a
step-2 match, else the first non-excluded candidate, else the first
candidate regardless of exclusion. -/
def selectSpec (folderPath : String) (candidates : List String) : Option String :=
  match candidates.find? (fun c => specStep1 folderPath c) with
  | some c => some c
  | none =>
    match candidates.find? (fun c => specStep2 c) with
    | some c => some c
    | none =>
      match candidates.find? (fun c => specStep3 c) with
      | some c => some c
      | none => candidates.head?

/-! ## Concrete test data -/

/-- The keys `GameEntry.from_dict` and the load loop read; every other key
of a games-array entry is ignored. -/
def knownKeys : List String :=
  ["name", "path", "icon_path", "is_favorite", "notes", "last_played",
   "total_playtime"]

/-- The folder of the specification's worked example. -/
def haloFolder : String := "C:\\Games\\Halo"

/-- Walk of the example folder: three executables, in enumeration order. -/
def haloWalk : List (String × List String) :=
  [("C:\\Games\\Halo", ["Halo.exe", "unitycrashhandler64.exe", "HaloLauncher.exe"])]

/-- A freshly started application: empty in-memory state, freshly
synthesized file. -/
def w0cex : World := { mem := emptyDoc, disk := save_games emptyDoc }

/-- A known game record. -/
def g0cex : GameEntry := GameEntry.init "g" "C:\\G\\g.exe" none

/-- A catalog holding exactly that record. -/
def docG : Doc := { emptyDoc with games := [g0cex] }

/-- A world whose catalog holds that record, file in sync. -/
def wG : World := { mem := docG, disk := save_games docG }

/-- A detected candidate whose executable path collides with `g0cex`. -/
def dupDetected : GameEntry := GameEntry.init "x" "C:\\G\\g.exe" none

/-- An icon provider that resolves nothing. -/
def noIcon : String → Option String := fun _ => none

/-- A scannable child folder containing the example executables. -/
def haloChild : ChildDir :=
  { name := "Halo"
    path := "C:\\S\\Halo"
    walk := [("C:\\S\\Halo", ["Halo.exe", "unitycrashhandler64.exe", "HaloLauncher.exe"])] }

/-- A scan root with that single child. -/
def scanRoot1 : RootDir := { path := "C:\\S", children := [haloChild] }

/-- The record detection proposes for `haloChild`. -/
def detectedHalo : GameEntry := GameEntry.init "Halo" "C:\\S\\Halo\\Halo.exe" none

/-- A games-array entry without a name: `data["name"]` raises. -/
def badEntry : JValue := JValue.obj [("path", JValue.str "q")]

/-- The record decoded from a minimal well-formed entry. -/
def entryA : GameEntry := GameEntry.init "A" "p" none

/-- A parseable document whose second games entry is malformed. -/
def partialJson : JValue :=
  JValue.obj [("games", JValue.arr
    [JValue.obj [("name", JValue.str "A"), ("path", JValue.str "p")], badEntry])]

/-- A parseable document storing an out-of-range blur. -/
def blurJson : JValue := JValue.obj [("custom_background_blur", JValue.int (-5))]

/-- A catalog state whose blur exceeds the slider's maximum. -/
def doc25 : Doc := { emptyDoc with bg_blur_amount := 25 }

/-- A catalog state with a negative blur. -/
def docNeg : Doc := { emptyDoc with bg_blur_amount := -7 }

/-! ## Helper lemmas -/

/-- A first match is the head of the filtered list. -/
theorem find?_eq_head_filter (p : α → Bool) (l : List α) :
    l.find? p = (l.filter p).head? := by
  induction l with
  | nil => rfl
  | cons a t ih =>
    cases h : p a
    · rw [List.find?_cons_of_neg _ (by simp [h]), List.filter_cons_of_neg (by simp [h]), ih]
    · rw [List.find?_cons_of_pos _ h, List.filter_cons_of_pos h, List.head?_cons]

/-- Decoding inverts encoding on every record. -/
theorem from_dict_to_dict (g : GameEntry) :
    GameEntry.from_dict_typed g.to_dict = some g := by
  cases g with
  | mk name path icon fav nts lp tp => cases icon <;> rfl

/-- The typed decoding fails on every entry the Python load loop raises
on (the converse does not hold: it also rejects ill-typed entries outside
the written schema, which Python stores raw). -/
theorem decode_of_raises (x : JValue) (h : entryRaises x = true) :
    decodeEntry x = none := by
  cases x with
  | null => rfl
  | bool b => rfl
  | int n => rfl
  | str s => rfl
  | arr l => rfl
  | obj kvs =>
    simp only [entryRaises, Bool.or_eq_true, Option.isNone_iff_eq_none] at h
    simp only [decodeEntry]
    unfold GameEntry.from_dict_typed
    rcases h with h | h
    · rw [h]
    · rw [h]
      cases hn : jGet kvs "name" with
      | none => rfl
      | some v => cases v <;> rfl

/-- The load loop walks an encoded prefix without failing, appending its
records. -/
theorem loadEntries_append_map (gs : List GameEntry) (l : List JValue)
    (acc : List GameEntry) :
    loadEntries (gs.map (fun g => JValue.obj g.to_dict) ++ l) acc =
      loadEntries l (acc ++ gs) := by
  induction gs generalizing acc with
  | nil => simp
  | cons g t ih =>
    simp only [List.map_cons, List.cons_append, loadEntries, decodeEntry,
      from_dict_to_dict, List.append_eq]
    rw [ih]
    simp

/-- Decoding inverts encoding on string lists. -/
theorem decodeStrList_map (l : List String) :
    decodeStrList (JValue.arr (l.map JValue.str)) = some l := by
  induction l with
  | nil => rfl
  | cons s t ih =>
    simp only [decodeStrList, List.map_cons, decodeStrList.go]
    simp only [decodeStrList] at ih
    rw [ih]

/-- Loading a saved document restores it exactly, with no error. -/
theorem load_save_eq (prior d : Doc) :
    load_games prior (some (save_games d)) = (d, none) := by
  obtain ⟨gs, sf, bg, bl⟩ := d
  have h1 : loadEntries (gs.map (fun g => JValue.obj g.to_dict)) [] = (gs, false) := by
    have h2 := loadEntries_append_map gs [] []
    rw [List.append_nil] at h2
    rw [h2]
    rfl
  simp [load_games, save_games, jGet, h1, decodeStrList_map]
  cases bg <;> simp [optStrJ]

/-- The source-side heuristic coincides with the spec-side four-step
selection on the candidate list of the walk. -/
theorem find_eq_selectSpec (fp : String) (walk : List (String × List String)) :
    find_game_exe fp walk = selectSpec fp (walkCandidates walk) := by
  unfold find_game_exe selectSpec specStep1 specStep2 specStep3
  cases hc : walkCandidates walk with
  | nil => simp
  | cons a t =>
    simp only [List.isEmpty_cons, if_neg]
    rw [find?_eq_head_filter (fun c => !excludedName c) (a :: t)]
    cases h1 : (a :: t).find? (fun c =>
        strContains (toLowerS (splitextRoot (basename c))) (toLowerS (basename fp))
          && !excludedName c) <;>
      cases h2 : (a :: t).find? (fun c =>
        strContains (toLowerS (basename c)) "launcher" && !excludedName c) <;>
      cases h3 : ((a :: t).filter (fun c => !excludedName c)).head? <;>
      simp [h1, h2, h3] <;>
      cases h4 : (a :: t).filter (fun c => !excludedName c) <;>
      simp_all

/-- The candidate list is empty exactly when no walked file has an
executable name. -/
theorem walkCandidates_nil_iff (walk : List (String × List String)) :
    walkCandidates walk = [] ↔ ∀ rf ∈ walk, ∀ f ∈ rf.2, isExeName f = false := by
  induction walk with
  | nil => simp [walkCandidates]
  | cons rf t ih =>
    simp only [walkCandidates, List.append_eq_nil, List.map_eq_nil_iff,
      List.filter_eq_nil_iff, ih, List.mem_cons, Bool.not_eq_true]
    constructor
    · rintro ⟨h1, h2⟩
      intro x hx
      rcases hx with rfl | hx
      · exact fun f hf => h1 f hf
      · exact h2 x hx
    · intro h
      exact ⟨fun f hf => h rf (Or.inl rfl) f hf, fun x hx => h x (Or.inr hx)⟩

/-- The four-step selection only returns members of the candidate list. -/
theorem selectSpec_mem (fp : String) (l : List String) (p : String)
    (h : selectSpec fp l = some p) : p ∈ l := by
  unfold selectSpec at h
  cases h1 : l.find? (fun c => specStep1 fp c) with
  | some c => rw [h1] at h; cases h; exact List.mem_of_find?_eq_some h1
  | none =>
    rw [h1] at h
    cases h2 : l.find? (fun c => specStep2 c) with
    | some c => rw [h2] at h; cases h; exact List.mem_of_find?_eq_some h2
    | none =>
      rw [h2] at h
      cases h3 : l.find? (fun c => specStep3 c) with
      | some c => rw [h3] at h; cases h; exact List.mem_of_find?_eq_some h3
      | none =>
        rw [h3] at h
        cases l with
        | nil => simp at h
        | cons a t =>
          rw [List.head?_cons] at h
          cases h
          exact List.mem_cons_self _ _

/-- The four-step selection returns nothing exactly on an empty candidate
list. -/
theorem selectSpec_none_iff (fp : String) (l : List String) :
    selectSpec fp l = none ↔ l = [] := by
  constructor
  · intro h
    unfold selectSpec at h
    cases l with
    | nil => rfl
    | cons a t =>
      exfalso
      cases h1 : (a :: t).find? (fun c => specStep1 fp c) with
      | some c => rw [h1] at h; simp at h
      | none =>
        rw [h1] at h
        cases h2 : (a :: t).find? (fun c => specStep2 c) with
        | some c => rw [h2] at h; simp at h
        | none =>
          rw [h2] at h
          cases h3 : (a :: t).find? (fun c => specStep3 c) with
          | some c => rw [h3] at h; simp at h
          | none => rw [h3] at h; simp at h
  · intro h
    subst h
    rfl

/-- No record scanned out of a root's children carries a known path. -/
theorem scanChildren_known (games : List GameEntry) (icon : String → Option String)
    (l : List ChildDir) (c : GameEntry) (hc : c ∈ scanChildren games icon l)
    (g : GameEntry) (hg : g ∈ games) : g.path ≠ c.path := by
  induction l with
  | nil => simp [scanChildren] at hc
  | cons ch t ih =>
    unfold scanChildren at hc
    cases hf : find_game_exe ch.path ch.walk with
    | none => simp only [hf] at hc; exact ih hc
    | some exe =>
      simp only [hf] at hc
      by_cases hany : games.any (fun g => g.path == exe) = true
      · rw [if_pos hany] at hc; exact ih hc
      · rw [if_neg hany] at hc
        rcases List.mem_cons.mp hc with rfl | hmem
        · intro hpath
          apply hany
          rw [List.any_eq_true]
          exact ⟨g, hg, by simp [GameEntry.init] at hpath ⊢; exact hpath⟩
        · exact ih hmem

/-- No detected candidate carries a known path. -/
theorem detect_known (games : List GameEntry) (icon : String → Option String)
    (roots : List RootDir) (c : GameEntry) (hc : c ∈ detect_candidates games icon roots)
    (g : GameEntry) (hg : g ∈ games) : g.path ≠ c.path := by
  induction roots with
  | nil => simp [detect_candidates] at hc
  | cons r t ih =>
    unfold detect_candidates at hc
    rcases List.mem_append.mp hc with h | h
    · exact scanChildren_known games icon r.children c h g hg
    · exact ih h

/-- Accepting a candidate whose path is already present is skipped. -/
theorem accept_skip (games : List GameEntry) (s : GameEntry) (t : List GameEntry)
    (h : games.any (fun g => g.path == s.path) = true) :
    accept_detected games (s :: t) = accept_detected games t := by
  conv_lhs => unfold accept_detected
  rw [if_pos h]

/-- Accepting candidates preserves pairwise-distinct paths. -/
theorem accept_nodup (sel games : List GameEntry)
    (h : (games.map GameEntry.path).Nodup) :
    ((accept_detected games sel).map GameEntry.path).Nodup := by
  induction sel generalizing games with
  | nil => exact h
  | cons s t ih =>
    unfold accept_detected
    by_cases hany : games.any (fun g => g.path == s.path) = true
    · rw [if_pos hany]; exact ih games h
    · rw [if_neg hany]
      apply ih
      rw [List.map_append, List.map_singleton]
      rw [List.nodup_append]
      refine ⟨h, List.nodup_singleton _, ?_⟩
      intro a ha hb
      rw [List.mem_singleton] at hb
      subst hb
      rw [List.mem_map] at ha
      obtain ⟨g, hg, hEq⟩ := ha
      apply hany
      rw [List.any_eq_true]
      exact ⟨g, hg, by simp [hEq]⟩

/-- Inserting a binding for a different key does not change a lookup. -/
theorem jGet_insert_unknown (kvs1 kvs2 : List (String × JValue)) (k : String)
    (v : JValue) (key : String) (hne : key ≠ k) :
    jGet (kvs1 ++ (k, v) :: kvs2) key = jGet (kvs1 ++ kvs2) key := by
  induction kvs1 with
  | nil =>
    simp only [List.nil_append, jGet]
    rw [if_neg (by simpa [beq_iff_eq] using fun h => hne h.symm)]
  | cons p t ih =>
    obtain ⟨k1, v1⟩ := p
    simp only [List.cons_append, jGet]
    by_cases h : k1 == key
    · rw [if_pos h, if_pos h]
    · rw [if_neg h, if_neg h]; exact ih

/-- Inserting a binding for a key outside the schema anywhere in the
entry does not change the decoded record. -/
theorem from_dict_insert_unknown (kvs1 kvs2 : List (String × JValue)) (k : String)
    (v : JValue) (hk : k ∉ knownKeys) :
    GameEntry.from_dict (kvs1 ++ (k, v) :: kvs2) = GameEntry.from_dict (kvs1 ++ kvs2) := by
  simp only [knownKeys, List.mem_cons, List.not_mem_nil, or_false] at hk
  push_neg at hk
  obtain ⟨h1, h2, h3, h4, h5, h6, h7⟩ := hk
  unfold GameEntry.from_dict
  rw [jGet_insert_unknown kvs1 kvs2 k v "name" (Ne.symm h1),
    jGet_insert_unknown kvs1 kvs2 k v "path" (Ne.symm h2),
    jGet_insert_unknown kvs1 kvs2 k v "icon_path" (Ne.symm h3),
    jGet_insert_unknown kvs1 kvs2 k v "is_favorite" (Ne.symm h4),
    jGet_insert_unknown kvs1 kvs2 k v "notes" (Ne.symm h5),
    jGet_insert_unknown kvs1 kvs2 k v "last_played" (Ne.symm h6),
    jGet_insert_unknown kvs1 kvs2 k v "total_playtime" (Ne.symm h7)]

/-- A load that fails on a games entry keeps exactly the records decoded
before the failing entry. -/
theorem load_partial (prior : Doc) (gs : List GameEntry) (bad : JValue)
    (rest : List JValue) (hbad : decodeEntry bad = none) :
    load_games prior (some (JValue.obj [("games",
        JValue.arr (gs.map (fun g => JValue.obj g.to_dict) ++ bad :: rest))])) =
      ({ prior with games := gs }, some loadErrMsg) := by
  simp only [load_games, jGet]
  norm_num
  rw [loadEntries_append_map gs (bad :: rest) []]
  simp only [loadEntries, hbad, List.nil_append]

/-- A load that fails on a games entry the loop raises on leaves the
whole world as it was except for the decoded prefix of records, and never
touches the file. -/
theorem load_partial_world (w : World) (gs : List GameEntry) (bad : JValue)
    (rest : List JValue) (h : entryRaises bad = true) :
    W.load w (some (some (JValue.obj [("games",
        JValue.arr (gs.map (fun g => JValue.obj g.to_dict) ++ bad :: rest))]))) =
      ({ w with mem := { w.mem with games := gs } }, some loadErrMsg) := by
  have h1 := load_partial w.mem gs bad rest (decode_of_raises bad h)
  simp only [W.load, h1]

/-- A fully successful load of a saved document installs it and then runs
the slider feedback. -/
theorem load_of_save_world (w : World) (d : Doc) :
    W.load w (some (some (save_games d))) =
      (W.blurFeedback { w with mem := d }, none) := by
  have h1 := load_save_eq w.mem d
  simp only [W.load, h1]

/-- The blur value held after a fully successful load: the stored value
clamped to [0, 20] when that clamp is nonzero (the signal fired), the
stored value itself otherwise. -/
theorem held_blur (w : World) (d : Doc) :
    (W.load w (some (some (save_games d)))).1.mem.bg_blur_amount =
      if sliderClamp d.bg_blur_amount ≠ 0 then sliderClamp d.bg_blur_amount
      else d.bg_blur_amount := by
  rw [load_of_save_world]
  show (W.blurFeedback { w with mem := d }).mem.bg_blur_amount = _
  unfold W.blurFeedback W.set_background_blur
  by_cases h : sliderClamp d.bg_blur_amount ≠ 0
  · rw [if_pos h, if_pos h]
  · rw [if_neg h, if_neg h]

/-- Toggling a favorite either saves the new state or changes nothing. -/
theorem toggle_keeps_synced (w : World) (p : String) (h : w.synced) :
    (W.toggle_favorite w p).synced := by
  unfold W.toggle_favorite
  by_cases hany : w.mem.games.any (fun g => g.path == p) = true
  · rw [if_pos hany]; rfl
  · rw [if_neg hany]; exact h

/-- Scan-folder mutations never touch the file. -/
theorem scan_ops_no_write (w : World) (f : String) (sel : List String) :
    (W.add_scan_folder w f).disk = w.disk ∧
    (W.remove_scan_folder w sel).disk = w.disk := by
  constructor
  · unfold W.add_scan_folder
    by_cases h : w.mem.custom_scan_folders.contains f = true
    · rw [if_pos h]
    · rw [if_neg h]
  · rfl

/-! ## Claim theorems -/

/-- Claim C1: for every scanned child folder, the executable-selection
heuristic applies the four steps in order with first match winning —
(1) a non-excluded candidate whose base filename sans extension contains
the folder's base name, else (2) a non-excluded candidate containing
"launcher", else (3) the first non-excluded candidate, else (4) the first
candidate regardless of exclusion; and on the folder Halo containing
Halo.exe, unitycrashhandler64.exe and HaloLauncher.exe, step 1 picks
Halo.exe. -/
theorem claim1_selection_four_steps :
    (∀ (fp : String) (walk : List (String × List String)),
        find_game_exe fp walk = selectSpec fp (walkCandidates walk)) ∧
    find_game_exe haloFolder haloWalk = some "C:\\Games\\Halo\\Halo.exe" :=
  ⟨find_eq_selectSpec, by decide⟩

/-- Claim C2: loading the file produced by saving any catalog document
reproduces the document exactly — same records with the same field values
in the same order, same scan-folder list, same background path, same blur
value — whatever state the application held before. -/
theorem claim2_save_load_roundtrip (prior d : Doc) :
    load_games prior (some (save_games d)) = (d, none) :=
  load_save_eq prior d

/-- Claim C3 counterexample: with a catalog already holding a record at
path C:\G\g.exe, a manual add of the same executable does not leave the
catalog unchanged — it appends a second record with the duplicate path. -/
theorem claim3_counterexample :
    (∃ g ∈ wG.mem.games, g.path = "C:\\G\\g.exe") ∧
    (W.add_game_manually wG "C:\\G\\g.exe" none).mem.games.map GameEntry.path =
      ["C:\\G\\g.exe", "C:\\G\\g.exe"] ∧
    ¬ ((W.add_game_manually wG "C:\\G\\g.exe" none).mem = wG.mem) :=
  ⟨⟨g0cex, by decide, by decide⟩, by decide, by decide⟩

/-- Claim C3 as amended: accepting detected candidates rejects a
duplicate path as a no-op and preserves path uniqueness, but the manual
add dialog performs no duplicate check — it appends unconditionally, even
when a record with the same path already exists. -/
theorem claim3_amended :
    (∀ (games : List GameEntry) (s : GameEntry) (t : List GameEntry),
        games.any (fun g => g.path == s.path) = true →
        accept_detected games (s :: t) = accept_detected games t) ∧
    (∀ (sel games : List GameEntry), (games.map GameEntry.path).Nodup →
        ((accept_detected games sel).map GameEntry.path).Nodup) ∧
    (∀ (w : World) (exe : String) (icon : Option String),
        (W.add_game_manually w exe icon).mem.games =
          w.mem.games ++ [GameEntry.init (splitextRoot (basename exe)) exe icon]) :=
  ⟨accept_skip, accept_nodup, fun _ _ _ => rfl⟩

/-- Claim C3 witness: accepting a duplicate-path candidate over the
one-record catalog is a no-op, and path uniqueness survives the accept. -/
theorem claim3_witness :
    accept_detected [g0cex] [dupDetected] = accept_detected [g0cex] [] ∧
    ((accept_detected [g0cex] [dupDetected]).map GameEntry.path).Nodup :=
  ⟨claim3_amended.1 [g0cex] dupDetected [] (by decide),
   claim3_amended.2.1 [dupDetected] [g0cex] (by decide)⟩

/-- Claim C4: detection never emits a candidate whose chosen executable
path is already present among the known games' paths. -/
theorem claim4_never_proposes_known (games : List GameEntry)
    (icon : String → Option String) (roots : List RootDir) (c : GameEntry)
    (hc : c ∈ detect_candidates games icon roots)
    (g : GameEntry) (hg : g ∈ games) : g.path ≠ c.path :=
  detect_known games icon roots c hc g hg

/-- Claim C4 witness: the Halo candidate detected over a catalog knowing
C:\G\g.exe does not carry that known path. -/
theorem claim4_witness : g0cex.path ≠ detectedHalo.path :=
  claim4_never_proposes_known [g0cex] noIcon [scanRoot1] detectedHalo
    (by decide) g0cex (by decide)

/-- Claim C5 (code bug evidence): the effective launch operation — the
last definition of the method, which Python binds — changes nothing at
all: after a 125-second session on a record with total playtime 0, the
playtime is still 0 and the last-played field still "Never", in
contradiction with the claimed session accounting (implemented only in
shadowed, unreachable definitions earlier in the source). -/
theorem claim5_launch_updates_nothing :
    (∀ (w : World) (p : String) (ok : Bool) (dur : Int),
        W.launch_selected_game w p ok dur = w) ∧
    (W.launch_selected_game wG "C:\\G\\g.exe" true 125).mem.games.map
      GameEntry.total_playtime = [0] ∧
    (W.launch_selected_game wG "C:\\G\\g.exe" true 125).mem.games.map
      GameEntry.last_played = ["Never"] :=
  ⟨fun _ _ _ _ => rfl, by decide, by decide⟩

/-- Claim C6 counterexample: starting from a synced world, adding a scan
folder leaves the file untouched, so the persisted document no longer
equals the in-memory state once the operation returns. -/
theorem claim6_counterexample :
    World.synced w0cex ∧
    ¬ ((W.add_scan_folder w0cex "C:\\X").disk =
        save_games (W.add_scan_folder w0cex "C:\\X").mem) :=
  ⟨rfl, by decide⟩

/-- Claim C6 as amended: every mutating operation except scan-folder
addition and removal rewrites the full document immediately, so the
persisted file equals the in-memory state when it returns; scan-folder
addition and removal mutate only the in-memory list and leave the file
untouched until some other operation saves. -/
theorem claim6_amended :
    (∀ (w : World) (exe : String) (icon : Option String),
        (W.add_game_manually w exe icon).synced) ∧
    (∀ (w : World) (p : String), (W.remove_selected_game w p).synced) ∧
    (∀ (w : World) (p n : String), (W.rename_selected_game w p n).synced) ∧
    (∀ (w : World) (p t : String), (W.edit_notes w p t).synced) ∧
    (∀ (w : World) (p : String), w.synced → (W.toggle_favorite w p).synced) ∧
    (∀ (w : World) (f : String), (W.set_custom_background w f).synced) ∧
    (∀ (w : World) (v : Int), (W.set_background_blur w v).synced) ∧
    (∀ (w : World), (W.reset_games_list w).synced) ∧
    (∀ (w : World) (sel : List GameEntry), (W.accept_candidates w sel).synced) ∧
    (∀ (w : World) (f : String), (W.add_scan_folder w f).disk = w.disk) ∧
    (∀ (w : World) (sel : List String), (W.remove_scan_folder w sel).disk = w.disk) :=
  ⟨fun _ _ _ => rfl, fun _ _ => rfl, fun _ _ _ => rfl, fun _ _ _ => rfl,
   toggle_keeps_synced, fun _ _ => rfl, fun _ _ => rfl, fun _ => rfl,
   fun _ _ => rfl, fun w f => (scan_ops_no_write w f []).1,
   fun w sel => (scan_ops_no_write w "" sel).2⟩

/-- Claim C6 witness: toggling a favorite on the freshly synced startup
world keeps file and memory in sync. -/
theorem claim6_witness : (W.toggle_favorite w0cex "p").synced :=
  claim6_amended.2.2.2.2.1 w0cex "p" rfl

/-- Claim C7 counterexample: a file that parses as JSON but whose second
games entry lacks the mandatory name makes the load fail — the error is
reported — yet the document is not empty: the record decoded before the
failing entry is retained. -/
theorem claim7_counterexample :
    (load_games emptyDoc (some partialJson)).2 = some loadErrMsg ∧
    (load_games emptyDoc (some partialJson)).1.games = [entryA] ∧
    ¬ ((load_games emptyDoc (some partialJson)).1.games = []) :=
  ⟨by decide, by decide, by decide⟩

/-- Claim C7 as amended: on a read or JSON-parse failure the load reports
the error, keeps the prior in-memory document — which is empty at
startup, the only call site — and leaves the existing file unmodified
(the exception skips the rest of the try block, including the slider
feedback that is the only way a load writes).  When the JSON parses but a
games entry is one the loop raises on (not an object, or missing name or
path), the load reports the error and leaves the file unmodified, but
retains exactly the records decoded before the failing entry rather than
yielding an empty document. -/
theorem claim7_amended :
    (∀ (d : Doc), load_games d none = (d, some loadErrMsg)) ∧
    (∀ (w : World), W.load w (some none) = (w, some loadErrMsg)) ∧
    (∀ (w : World) (gs : List GameEntry) (bad : JValue) (rest : List JValue),
        entryRaises bad = true →
        W.load w (some (some (JValue.obj [("games",
            JValue.arr (gs.map (fun g => JValue.obj g.to_dict) ++ bad :: rest))]))) =
          ({ w with mem := { w.mem with games := gs } }, some loadErrMsg)) :=
  ⟨fun _ => rfl, fun _ => rfl, load_partial_world⟩

/-- Claim C7 witness: loading a document whose games array is one good
entry followed by a nameless entry keeps the good record in memory,
reports the error and does not touch the file. -/
theorem claim7_witness :
    W.load w0cex (some (some (JValue.obj [("games", JValue.arr
        ([entryA].map (fun g => JValue.obj g.to_dict) ++ badEntry :: []))]))) =
      ({ w0cex with mem := { w0cex.mem with games := [entryA] } }, some loadErrMsg) :=
  claim7_amended.2.2 w0cex [entryA] badEntry [] (by decide)

/-- Claim C8: every games-array entry holding a name and a path — with
any mixture of present and absent optional fields — decodes to a record;
the name and path keep their stored values; each absent optional field
takes its default (null icon, favorite false, empty notes, last played
"Never", zero playtime) and each present optional field keeps its stored
value, whatever it is; and keys outside the schema are ignored wherever
they sit in the entry. -/
theorem claim8_defaults_and_merge :
    (∀ (kvs : List (String × JValue)),
        (jGet kvs "name").isSome = true → (jGet kvs "path").isSome = true →
        ∃ g : RawEntry, GameEntry.from_dict kvs = some g ∧
          ((∀ v, jGet kvs "name" = some v → g.name = v) ∧
           (∀ v, jGet kvs "path" = some v → g.path = v)) ∧
          ((jGet kvs "icon_path" = none → g.icon_path = JValue.null) ∧
           (∀ v, jGet kvs "icon_path" = some v → g.icon_path = v)) ∧
          ((jGet kvs "is_favorite" = none → g.is_favorite = JValue.bool false) ∧
           (∀ v, jGet kvs "is_favorite" = some v → g.is_favorite = v)) ∧
          ((jGet kvs "notes" = none → g.notes = JValue.str "") ∧
           (∀ v, jGet kvs "notes" = some v → g.notes = v)) ∧
          ((jGet kvs "last_played" = none → g.last_played = JValue.str "Never") ∧
           (∀ v, jGet kvs "last_played" = some v → g.last_played = v)) ∧
          ((jGet kvs "total_playtime" = none → g.total_playtime = JValue.int 0) ∧
           (∀ v, jGet kvs "total_playtime" = some v → g.total_playtime = v))) ∧
    (∀ (kvs1 kvs2 : List (String × JValue)) (k : String) (v : JValue),
        k ∉ knownKeys →
        GameEntry.from_dict (kvs1 ++ (k, v) :: kvs2) =
          GameEntry.from_dict (kvs1 ++ kvs2)) := by
  constructor
  · intro kvs hn hp
    rw [Option.isSome_iff_exists] at hn hp
    obtain ⟨nv, hn⟩ := hn
    obtain ⟨pv, hp⟩ := hp
    unfold GameEntry.from_dict
    rw [hn, hp]
    refine ⟨_, rfl, ⟨?_, ?_⟩, ⟨?_, ?_⟩, ⟨?_, ?_⟩, ⟨?_, ?_⟩, ⟨?_, ?_⟩, ⟨?_, ?_⟩⟩
    · intro v hv; cases hv; rfl
    · intro v hv; cases hv; rfl
    · intro h; rw [h]; rfl
    · intro v hv; rw [hv]; rfl
    · intro h; rw [h]; rfl
    · intro v hv; rw [hv]; rfl
    · intro h; rw [h]; rfl
    · intro v hv; rw [hv]; rfl
    · intro h; rw [h]; rfl
    · intro v hv; rw [hv]; rfl
    · intro h; rw [h]; rfl
    · intro v hv; rw [hv]; rfl
  · exact from_dict_insert_unknown

/-- Claim C8 witness: a mixed entry — name, path and notes present, the
other optional fields absent — decodes with notes kept and the favorite
flag defaulted; and a stray steam_appid key does not change the decoded
record. -/
theorem claim8_witness :
    (∃ g : RawEntry,
        GameEntry.from_dict [("name", JValue.str "A"), ("path", JValue.str "p"),
            ("notes", JValue.str "hi")] = some g ∧
          g.notes = JValue.str "hi" ∧ g.is_favorite = JValue.bool false) ∧
    GameEntry.from_dict [("name", JValue.str "A"), ("path", JValue.str "p"),
        ("steam_appid", JValue.int 570)] =
      GameEntry.from_dict [("name", JValue.str "A"), ("path", JValue.str "p")] := by
  constructor
  · obtain ⟨g, hg, hnp, hicon, hfav, hnotes, hlp, htp⟩ :=
      claim8_defaults_and_merge.1 [("name", JValue.str "A"), ("path", JValue.str "p"),
        ("notes", JValue.str "hi")] (by decide) (by decide)
    exact ⟨g, hg, hnotes.2 (JValue.str "hi") (by decide), hfav.1 (by decide)⟩
  · exact claim8_defaults_and_merge.2
      [("name", JValue.str "A"), ("path", JValue.str "p")] [] "steam_appid"
      (JValue.int 570) (by decide)

/-- Claim C9 counterexample: a full load — slider feedback included — of
a persisted document that stores the blur value -5 succeeds and leaves
the application holding -5, an integer outside the claimed range [0, 20]
(the clamp of -5 is 0, which equals the slider's current value, so no
signal fires and nothing corrects the held value). -/
theorem claim9_counterexample :
    (W.load w0cex (some (some blurJson))).2 = none ∧
    (W.load w0cex (some (some blurJson))).1.mem.bg_blur_amount = -5 ∧
    ¬ (0 ≤ (W.load w0cex (some (some blurJson))).1.mem.bg_blur_amount ∧
        (W.load w0cex (some (some blurJson))).1.mem.bg_blur_amount ≤ 20) :=
  ⟨by decide, by decide, by decide⟩

/-- Claim C9 as amended: blur values set through the slider stay within
the slider's configured bounds [0, 20].  Loading assigns the stored value
without clamping and then runs the slider feedback, which fires only when
the value clamped to [0, 20] differs from the slider's current 0: a
non-negative stored value is therefore held as its clamp min(stored, 20),
inside the bounds, but a negative stored value is held as-is.  The blur
held after loading lies in [0, 20] exactly when the stored value is
non-negative. -/
theorem claim9_amended :
    (∀ (w : World) (v : Int), 0 ≤ v → v ≤ 20 →
        0 ≤ (W.set_background_blur w v).mem.bg_blur_amount ∧
        (W.set_background_blur w v).mem.bg_blur_amount ≤ 20) ∧
    (∀ (w : World) (d : Doc), 0 ≤ d.bg_blur_amount →
        (W.load w (some (some (save_games d)))).1.mem.bg_blur_amount =
          min d.bg_blur_amount 20) ∧
    (∀ (w : World) (d : Doc), d.bg_blur_amount < 0 →
        (W.load w (some (some (save_games d)))).1.mem.bg_blur_amount =
          d.bg_blur_amount) ∧
    (∀ (w : World) (d : Doc),
        (0 ≤ (W.load w (some (some (save_games d)))).1.mem.bg_blur_amount ∧
         (W.load w (some (some (save_games d)))).1.mem.bg_blur_amount ≤ 20) ↔
        0 ≤ d.bg_blur_amount) := by
  refine ⟨fun w v h1 h2 => ⟨h1, h2⟩, ?_, ?_, ?_⟩
  · intro w d h
    rw [held_blur]
    simp only [sliderClamp, max_def, min_def]
    split_ifs <;> omega
  · intro w d h
    rw [held_blur]
    simp only [sliderClamp, max_def, min_def]
    split_ifs <;> omega
  · intro w d
    rw [held_blur]
    simp only [sliderClamp, max_def, min_def]
    split_ifs <;> omega

/-- Claim C9 witness: a slider value of 7 is stored within bounds; a full
load of a document storing blur 25 holds the clamped 20; a full load of a
document storing blur -7 holds -7. -/
theorem claim9_witness :
    (0 ≤ (W.set_background_blur w0cex 7).mem.bg_blur_amount ∧
     (W.set_background_blur w0cex 7).mem.bg_blur_amount ≤ 20) ∧
    (W.load w0cex (some (some (save_games doc25)))).1.mem.bg_blur_amount =
      min 25 20 ∧
    (W.load w0cex (some (some (save_games docNeg)))).1.mem.bg_blur_amount = -7 :=
  ⟨claim9_amended.1 w0cex 7 (by decide) (by decide),
   claim9_amended.2.1 w0cex doc25 (by decide),
   claim9_amended.2.2.1 w0cex docNeg (by decide)⟩

/-- Claim C10: the executable chooser returns nothing exactly when no
walked file has a name ending in ".exe" (case-insensitive), and whenever
it returns a path, that path is one of the enumerated executable
candidates beneath the folder. -/
theorem claim10_none_iff_and_mem (fp : String) (walk : List (String × List String)) :
    (find_game_exe fp walk = none ↔ ∀ rf ∈ walk, ∀ f ∈ rf.2, isExeName f = false) ∧
    (∀ p, find_game_exe fp walk = some p → p ∈ walkCandidates walk) := by
  constructor
  · rw [find_eq_selectSpec, selectSpec_none_iff, walkCandidates_nil_iff]
  · intro p hp
    rw [find_eq_selectSpec] at hp
    exact selectSpec_mem fp (walkCandidates walk) p hp

/-- Claim C10 witness: the chooser's pick for the Halo folder is one of
its walked executables, and a folder holding only a readme yields no
pick. -/
theorem claim10_witness :
    "C:\\Games\\Halo\\Halo.exe" ∈ walkCandidates haloWalk ∧
    find_game_exe "C:\\Games\\Empty" [("C:\\Games\\Empty", ["readme.txt"])] = none :=
  ⟨(claim10_none_iff_and_mem haloFolder haloWalk).2 "C:\\Games\\Halo\\Halo.exe"
      (by decide),
   (claim10_none_iff_and_mem "C:\\Games\\Empty"
      [("C:\\Games\\Empty", ["readme.txt"])]).1.mpr (by decide)⟩

end GameNest
